import Mathlib

/-!
Verification of the ledger-aggregation engine of the Topfer personal-finance
application (`src/finance/views.py`): balance-history reconstruction
(`calculate_balance_history`), category-comparison aggregation
(`calculate_comparison_data`), and their two AJAX endpoints
(`get_balance_history`, `get_comparison_data`).

Modelling conventions:
* Python `Decimal`/`float` amounts are modelled as exact rationals (`ℚ`);
  Python `round(x, 2)` is modelled as round-half-to-even at two decimals.
* A `DateTimeField` value is a pair of a calendar day (days since 1970-01-01,
  as `ℤ`) and a second-of-day (`ℕ`).  The Django ORM compares a
  `DateTimeField` against a plain `date` by converting the date to the
  datetime at midnight of that day; the embedding reproduces exactly that.
* The ORM rows are a user's transactions given as a list (the aggregator's
  inputs are pre-filtered to one user, per the ownership boundary), and the
  global list of categories.
* `Sum(...)` over no rows yields SQL `NULL`, modelled as `none`;
  `order_by('-total')` is modelled as a sort descending by total with the
  `NULL` rows last (they are discarded by the subsequent loop either way).
-/

namespace Topfer

/-- The `transaction_type` choices of the `Transaction` model. -/
inductive TransactionKind where
  | income
  | expense
  | transfer
deriving DecidableEq, Repr

/-- The `category_type` choices of the `Category` model. -/
inductive CategoryKind where
  | income
  | expense
deriving DecidableEq, Repr

/-- A `DateTimeField` value: calendar day (days since 1970-01-01) plus
seconds within the day. -/
structure DateTimeV where
  day : ℤ
  sec : ℕ
deriving DecidableEq, Repr

/-- Lexicographic `≤` on datetimes, as the database compares them. -/
def dtLeB (a b : DateTimeV) : Bool :=
  decide (a.day < b.day) || (decide (a.day = b.day) && decide (a.sec ≤ b.sec))

/-- Lexicographic `<` on datetimes, as the database compares them. -/
def dtLtB (a b : DateTimeV) : Bool :=
  decide (a.day < b.day) || (decide (a.day = b.day) && decide (a.sec < b.sec))

/-- The datetime Django substitutes for a bare `date` in a `DateTimeField`
lookup: midnight at the start of that day. -/
def midnight (d : ℤ) : DateTimeV := ⟨d, 0⟩

/-- The fields of the `Transaction` model that the aggregators read.
`category` holds the id of the (nullable) category foreign key. -/
structure Transaction where
  amount : ℚ
  transaction_kind : TransactionKind
  transaction_date : DateTimeV
  category : Option ℕ
deriving DecidableEq, Repr

/-- The fields of the `Category` model that the aggregators read. -/
structure Category where
  id : ℕ
  category_name : String
  category_kind : CategoryKind
deriving DecidableEq, Repr

/-! ### Calendar rendering (`strftime`)

`civilFromDays` converts an epoch-day count to a Gregorian
(year, month, day) triple (valid for days ≥ -719468, i.e. from year 0 on,
which covers every date the application can produce). -/

/-- Gregorian (year, month, day) of an epoch-day count. -/
def civilFromDays (z : ℤ) : ℕ × ℕ × ℕ :=
  let zn := (z + 719468).toNat
  let era := zn / 146097
  let doe := zn % 146097
  let yoe := (doe - doe / 1460 + doe / 36524 - doe / 146096) / 365
  let doy := doe - (365 * yoe + yoe / 4 - yoe / 100)
  let mp := (5 * doy + 2) / 153
  let d := doy - (153 * mp + 2) / 5 + 1
  let m := if mp < 10 then mp + 3 else mp - 9
  (era * 400 + yoe + (if m ≤ 2 then 1 else 0), m, d)

/-- Zero-padded two-digit rendering, as `%d`, `%m`, `%y` produce. -/
def pad2 (n : ℕ) : String :=
  if n < 10 then "0" ++ toString n else toString n

/-- `strftime('%d.%m')`. -/
def fmt_dm (z : ℤ) : String :=
  let c := civilFromDays z
  pad2 c.2.2 ++ "." ++ pad2 c.2.1

/-- `strftime('%d.%m.%y')`. -/
def fmt_dmy (z : ℤ) : String :=
  let c := civilFromDays z
  pad2 c.2.2 ++ "." ++ pad2 c.2.1 ++ "." ++ pad2 (c.1 % 100)

/-- The date-format selection of `calculate_balance_history`:
`'%d.%m'` for `days ≤ 30`, `'%d.%m'` again for `days ≤ 90`,
`'%d.%m.%y'` otherwise. -/
def date_format (days : ℤ) : ℤ → String :=
  if days ≤ 30 then fmt_dm
  else if days ≤ 90 then fmt_dm
  else fmt_dmy

/-! ### Rounding (`round(x, 2)`) -/

/-- Floor of a rational, computed on its reduced fraction. -/
def ratFloor (q : ℚ) : ℤ := Int.fdiv q.num q.den

/-- Round a rational to the nearest integer, ties to even
(Python's rounding mode). -/
def roundHalfEven (q : ℚ) : ℤ :=
  let f := ratFloor q
  let frac := q - f
  if frac < 1/2 then f
  else if 1/2 < frac then f + 1
  else if f % 2 = 0 then f else f + 1

/-- `round(x, 2)`: round to two decimal places, ties to even. -/
def round2 (q : ℚ) : ℚ := (roundHalfEven (q * 100) : ℚ) / 100

/-! ### `calculate_balance_history` -/

/-- One iteration of the signed-accumulation loops: add the amount of an
`income` transaction, subtract the amount of an `expense` transaction,
leave a `transfer` untouched. -/
def signedStep (acc : ℚ) (t : Transaction) : ℚ :=
  match t.transaction_kind with
  | TransactionKind.income => acc + t.amount
  | TransactionKind.expense => acc - t.amount
  | TransactionKind.transfer => acc

/-- The `initial_balance` loop: signed sum over the rows matching
`transaction_date__lt=start_date` (the date is compared as midnight). -/
def initial_balance (txs : List Transaction) (start_date : ℤ) : ℚ :=
  (txs.filter (fun t => dtLtB t.transaction_date (midnight start_date))).foldl
    signedStep 0

/-- The `period_transactions` query:
`transaction_date__gte=start_date, transaction_date__lte=end_date`
(both dates compared as midnight). -/
def period_transactions (txs : List Transaction) (start_date end_date : ℤ) :
    List Transaction :=
  txs.filter (fun t =>
    dtLeB (midnight start_date) t.transaction_date &&
    dtLeB t.transaction_date (midnight end_date))

/-- The value `daily_changes.get(d, 0)` of the per-day `defaultdict`:
signed sum of the period transactions whose `transaction_date.date()`
is `d`. -/
def daily_changes (period : List Transaction) (d : ℤ) : ℚ :=
  (period.filter (fun t => decide (t.transaction_date.day = d))).foldl
    signedStep 0

/-- The day-walking loop of `calculate_balance_history`: starting at day `d`
with running total `bal`, for `n` days append the formatted label, add the
day's bucketed change, and append the rounded running total (the unrounded
total carries forward). -/
def balanceWalk (daily : ℤ → ℚ) (fmt : ℤ → String) :
    ℕ → ℤ → ℚ → List String × List ℚ
  | 0, _, _ => ([], [])
  | n + 1, d, bal =>
    let bal2 := bal + daily d
    let rest := balanceWalk daily fmt n (d + 1) bal2
    (fmt d :: rest.1, round2 bal2 :: rest.2)

/-- The result shape of `calculate_balance_history`. -/
structure BalanceHistory where
  labels : List String
  data : List ℚ
deriving DecidableEq, Repr

/-- `calculate_balance_history(user, days)`: `end_date = date.today()`,
`start_date = end_date - timedelta(days=days)`; the `while` loop from
`start_date` to `end_date` inclusive runs `days + 1` times (none when
`days < 0`). -/
def calculate_balance_history (txs : List Transaction) (today days : ℤ) :
    BalanceHistory :=
  let end_date := today
  let start_date := today - days
  let init := initial_balance txs start_date
  let period := period_transactions txs start_date end_date
  let walk := balanceWalk (daily_changes period) (date_format days)
    (days + 1).toNat start_date init
  ⟨walk.1, walk.2⟩

/-! ### `calculate_comparison_data` -/

/-- The `date_filter` `Q` object: no restriction when `days` is `None` or
falsy (`0`), otherwise `transaction_date` within
`[today - days, today]` (dates compared as midnight). -/
def date_filter (today : ℤ) (days : Option ℤ) : Transaction → Bool :=
  match days with
  | none => fun _ => true
  | some n =>
    if n = 0 then fun _ => true
    else fun t =>
      dtLeB (midnight (today - n)) t.transaction_date &&
      dtLeB t.transaction_date (midnight today)

/-- The `Sum('transactions__amount', filter=...)` annotation for one
category: `NULL` (`none`) when no transaction row matches, otherwise the
sum of the matching amounts.  The filter never consults
`transaction_kind`. -/
def catTotal (txs : List Transaction) (flt : Transaction → Bool)
    (c : Category) : Option ℚ :=
  let rel := txs.filter (fun t => decide (t.category = some c.id) && flt t)
  if rel.isEmpty then none else some (rel.foldl (fun a t => a + t.amount) 0)

/-- Sort key for `order_by('-total')`: totals compared in `WithBot ℚ`,
with `NULL` as bottom. -/
def totKey : Option ℚ → WithBot ℚ
  | none => ⊥
  | some q => (q : WithBot ℚ)

/-- The `order_by('-total')` ordering on annotated rows: descending by
total, `NULL` rows last. -/
def totalDesc (p q : Category × Option ℚ) : Prop := totKey q.2 ≤ totKey p.2

instance : DecidableRel totalDesc := fun p q =>
  inferInstanceAs (Decidable (totKey q.2 ≤ totKey p.2))

/-- The annotated, ordered queryset for one category kind:
`Category.objects.filter(category_type=kind).annotate(total=Sum(...))
.order_by('-total')`. -/
def by_category (cats : List Category) (kind : CategoryKind)
    (txs : List Transaction) (flt : Transaction → Bool) :
    List (Category × Option ℚ) :=
  List.insertionSort totalDesc
    ((cats.filter (fun c => decide (c.category_kind = kind))).map
      (fun c => (c, catTotal txs flt c)))

/-- One iteration of the dictionary-building loop: when the row's total is
truthy and positive (`if cat.total and cat.total > 0`), bind
`cat.category_name` to the total; otherwise leave the bindings unchanged. -/
def dictStep (m : List (String × ℚ)) (p : Category × Option ℚ) :
    List (String × ℚ) :=
  match p.2 with
  | some q => if 0 < q then m ++ [(p.1.category_name, q)] else m
  | none => m

/-- The dictionary-building loop: for each annotated row with a truthy,
positive total, bind `cat.category_name` to `float(cat.total)` (a later
binding for the same name overwrites an earlier one). -/
def buildDict (rows : List (Category × Option ℚ)) : List (String × ℚ) :=
  rows.foldl dictStep []

/-- Python-dict lookup on a binding list: the last binding for the key
wins; `none` when the key was never bound. -/
def lookupLast (m : List (String × ℚ)) (k : String) : Option ℚ :=
  m.foldl (fun acc p => if p.1 = k then some p.2 else acc) none

/-- The keys bound in a dictionary. -/
def dictKeys (m : List (String × ℚ)) : List String := m.map Prod.fst

/-- The result shape of `calculate_comparison_data`. -/
structure ComparisonData where
  labels : List String
  expenses : List ℚ
  incomes : List ℚ
deriving DecidableEq, Repr

/-- `calculate_comparison_data(user, days=None)`: build the per-name
expense and income dictionaries, take the sorted union of their key sets,
and emit the three aligned series with `dict.get(cat, 0)` filling gaps. -/
def calculate_comparison_data (cats : List Category)
    (txs : List Transaction) (today : ℤ) (days : Option ℤ) :
    ComparisonData :=
  let flt := date_filter today days
  let expense_dict := buildDict (by_category cats CategoryKind.expense txs flt)
  let income_dict := buildDict (by_category cats CategoryKind.income txs flt)
  let all_categories := (dictKeys expense_dict ++ dictKeys income_dict).dedup
  let sorted_categories := List.insertionSort (fun a b => a ≤ b) all_categories
  ⟨sorted_categories,
    sorted_categories.map (fun c => (lookupLast expense_dict c).getD 0),
    sorted_categories.map (fun c => (lookupLast income_dict c).getD 0)⟩

/-! ### The AJAX endpoints -/

/-- Leading- and trailing-whitespace stripping on a character list, as
`int()` tolerates around a numeric literal. -/
def pyStrip (l : List Char) : List Char :=
  ((l.dropWhile Char.isWhitespace).reverse.dropWhile Char.isWhitespace).reverse

/-- Python's `int()` applied to a string: optional surrounding whitespace,
an optional sign, then at least one decimal digit; anything else raises
`ValueError` (`none`). -/
def parsePyInt (s : String) : Option ℤ :=
  match pyStrip s.toList with
  | [] => none
  | c :: rest =>
    let ds := if c = '-' || c = '+' then rest else c :: rest
    if ds.isEmpty || !ds.all Char.isDigit then none
    else
      let n : ℤ := (ds.foldl (fun a d => 10 * a + (d.toNat - 48)) 0 : ℕ)
      some (if c = '-' then -n else n)

/-- `get_balance_history(request)`: `days = int(request.GET.get('days', 30))`
(a missing parameter yields the integer default directly), clamp to
`{30, 90, 365}` with default `30`, delegate; any exception — in particular
the `ValueError` from `int()` — becomes the error response. -/
def get_balance_history (txs : List Transaction) (today : ℤ)
    (daysParam : Option String) : Except String BalanceHistory :=
  match daysParam with
  | none => Except.ok (calculate_balance_history txs today 30)
  | some s =>
    match parsePyInt s with
    | none => Except.error "invalid literal for int"
    | some n =>
      let days := if n = 30 ∨ n = 90 ∨ n = 365 then n else 30
      Except.ok (calculate_balance_history txs today days)

/-- `get_comparison_data(request)`: `days_param = request.GET.get('days',
'30')`; `'all'` means no window (`days=None`), otherwise `int(days_param)`
clamped to `{30, 90, 365}` with default `30`; any exception becomes the
error response. -/
def get_comparison_data (cats : List Category) (txs : List Transaction)
    (today : ℤ) (daysParam : Option String) : Except String ComparisonData :=
  let p := daysParam.getD "30"
  if p = "all" then
    Except.ok (calculate_comparison_data cats txs today none)
  else
    match parsePyInt p with
    | none => Except.error "invalid literal for int"
    | some n =>
      let days := if n = 30 ∨ n = 90 ∨ n = 365 then n else 30
      Except.ok (calculate_comparison_data cats txs today (some days))

/-! ### Specification-side vocabulary -/

/-- The glossary's signed contribution of a transaction: `+amount` for
income, `-amount` for expense, `0` for transfer. -/
def signedContribution (t : Transaction) : ℚ :=
  match t.transaction_kind with
  | TransactionKind.income => t.amount
  | TransactionKind.expense => -t.amount
  | TransactionKind.transfer => 0

/-- Whether a category carries a strictly positive annotated total under a
given filter (the condition for it to be emitted). -/
def hasPositiveTotal (txs : List Transaction) (flt : Transaction → Bool)
    (c : Category) : Bool :=
  match catTotal txs flt c with
  | some q => decide (0 < q)
  | none => false

/-! ## Infrastructure lemmas -/

theorem foldl_signedStep (l : List Transaction) (acc : ℚ) :
    l.foldl signedStep acc = acc + (l.map signedContribution).sum := by
  induction l generalizing acc with
  | nil => simp
  | cons t l ih =>
    rw [List.foldl_cons, ih]
    cases h : t.transaction_kind <;>
      simp [signedStep, signedContribution, h] <;> ring

theorem foldl_amount (l : List Transaction) (acc : ℚ) :
    l.foldl (fun a t => a + t.amount) acc =
      acc + (l.map (fun t => t.amount)).sum := by
  induction l generalizing acc with
  | nil => simp
  | cons t l ih =>
    rw [List.foldl_cons, ih, List.map_cons, List.sum_cons]
    ring

theorem dtLtB_midnight_eq (t : DateTimeV) (s : ℤ) :
    dtLtB t (midnight s) = decide (t.day < s) := by
  by_cases h : t.day < s <;> simp [dtLtB, midnight, h]

theorem dtLeB_midnight_left_eq (t : DateTimeV) (s : ℤ) :
    dtLeB (midnight s) t = decide (s ≤ t.day) := by
  by_cases h1 : s < t.day
  · simp [dtLeB, midnight, h1, le_of_lt h1]
  · by_cases h2 : s = t.day
    · simp [dtLeB, midnight, h1, h2]
    · have h3 : ¬ s ≤ t.day := by omega
      simp [dtLeB, midnight, h1, h2, h3]

theorem balanceWalk_fst (daily : ℤ → ℚ) (fmt : ℤ → String) (n : ℕ) :
    ∀ (d : ℤ) (bal : ℚ),
      (balanceWalk daily fmt n d bal).1 =
        (List.range n).map (fun (i : ℕ) => fmt (d + (i : ℤ))) := by
  induction n with
  | zero => intro d bal; simp [balanceWalk]
  | succ n ih =>
    intro d bal
    simp only [balanceWalk]
    rw [ih, List.range_succ_eq_map, List.map_cons, List.map_map]
    congr 1
    · norm_num
    · apply List.map_congr_left
      intro i _
      simp only [Function.comp_apply]
      congr 1
      push_cast
      ring

theorem balanceWalk_snd (daily : ℤ → ℚ) (fmt : ℤ → String) (n : ℕ) :
    ∀ (d : ℤ) (bal : ℚ),
      (balanceWalk daily fmt n d bal).2 =
        (List.range n).map (fun (i : ℕ) =>
          round2 (bal + ∑ j ∈ Finset.range (i + 1), daily (d + (j : ℤ)))) := by
  induction n with
  | zero => intro d bal; simp [balanceWalk]
  | succ n ih =>
    intro d bal
    simp only [balanceWalk]
    rw [ih, List.range_succ_eq_map, List.map_cons, List.map_map]
    congr 1
    · norm_num [Finset.sum_range_one]
    · apply List.map_congr_left
      intro i _
      simp only [Function.comp_apply]
      congr 1
      conv_rhs => rw [Finset.sum_range_succ']
      push_cast
      have key : ∑ j ∈ Finset.range (i + 1), daily (d + 1 + (j : ℤ)) =
          ∑ j ∈ Finset.range (i + 1), daily (d + ((j : ℤ) + 1)) := by
        apply Finset.sum_congr rfl
        intro j _
        congr 1
        ring
      rw [key, add_zero]
      ring

theorem calculate_balance_history_labels (txs : List Transaction)
    (today days : ℤ) :
    (calculate_balance_history txs today days).labels =
      (List.range (days + 1).toNat).map
        (fun (i : ℕ) => date_format days (today - days + (i : ℤ))) := by
  simp [calculate_balance_history, balanceWalk_fst]

theorem calculate_balance_history_data (txs : List Transaction)
    (today days : ℤ) :
    (calculate_balance_history txs today days).data =
      (List.range (days + 1).toNat).map (fun (i : ℕ) =>
        round2 (initial_balance txs (today - days) +
          ∑ j ∈ Finset.range (i + 1),
            daily_changes (period_transactions txs (today - days) today)
              (today - days + (j : ℤ)))) := by
  simp [calculate_balance_history, balanceWalk_snd]

/-! ## Claims -/

/-- C5: the initial balance of balance-history reconstruction is the signed
sum (`+amount` for income, `-amount` for expense, `0` for transfer) over
exactly those transactions whose date portion is strictly before
`start_date`; transactions on or after `start_date` contribute nothing. -/
theorem C5_initial_balance_signed_sum (txs : List Transaction) (s : ℤ) :
    initial_balance txs s =
      ((txs.filter (fun t => decide (t.transaction_date.day < s))).map
        signedContribution).sum := by
  rw [initial_balance, foldl_signedStep, zero_add]
  refine congrArg _ (congrArg _ (List.filter_congr ?_))
  intro t _
  rw [dtLtB_midnight_eq]

/-- C6: for every non-negative `window_days` the reconstruction returns
parallel `labels`/`balances` of length exactly `window_days + 1`, one label
per calendar day from `today - window_days` to `today` in ascending order;
for `window_days = 0` it returns the single pair for today, whose value is
the cumulative balance (initial balance plus today's bucketed change). -/
theorem C6_series_shape (txs : List Transaction) (today days : ℤ)
    (hd : 0 ≤ days) :
    (((calculate_balance_history txs today days).labels.length : ℤ) =
        days + 1 ∧
      ((calculate_balance_history txs today days).data.length : ℤ) =
        days + 1) ∧
    (calculate_balance_history txs today days).labels =
      (List.range (days + 1).toNat).map
        (fun (i : ℕ) => date_format days (today - days + (i : ℤ))) ∧
    (days = 0 →
      calculate_balance_history txs today days =
        ⟨[date_format 0 today],
          [round2 (initial_balance txs today +
            daily_changes (period_transactions txs today today) today)]⟩) := by
  have hn : (((days + 1).toNat : ℤ)) = days + 1 := Int.toNat_of_nonneg (by omega)
  refine ⟨⟨?_, ?_⟩, calculate_balance_history_labels txs today days, ?_⟩
  · rw [calculate_balance_history_labels]
    simp [hn]
  · rw [calculate_balance_history_data]
    simp [hn]
  · intro h0
    subst h0
    have h1 : ((0 : ℤ) + 1).toNat = 1 := rfl
    have hr : List.range 1 = [0] := rfl
    have hl : (calculate_balance_history txs today 0).labels =
        [date_format 0 today] := by
      rw [calculate_balance_history_labels]
      simp [h1, hr]
    have hdata : (calculate_balance_history txs today 0).data =
        [round2 (initial_balance txs today +
          daily_changes (period_transactions txs today today) today)] := by
      rw [calculate_balance_history_data]
      simp [h1, hr, Finset.sum_range_one]
    exact congrArg₂ BalanceHistory.mk hl hdata

/-- Witness for C6 at a concrete input. -/
theorem C6_series_shape_witness :
    (((calculate_balance_history [] 5 0).labels.length : ℤ) = 0 + 1 ∧
      ((calculate_balance_history [] 5 0).data.length : ℤ) = 0 + 1) ∧
    calculate_balance_history [] 5 0 =
      ⟨[date_format 0 5],
        [round2 (initial_balance [] 5 +
          daily_changes (period_transactions [] 5 5) 5)]⟩ :=
  ⟨(C6_series_shape [] 5 0 (by decide)).1,
    (C6_series_shape [] 5 0 (by decide)).2.2 rfl⟩

/-- C4: each entry of the balance series is the initial balance plus the
sum of the bucketed daily contributions of the days up to and including
that entry's day, rounded to two decimals only at emission (the unrounded
running total carries forward); hence the final entry is the initial
balance plus the sum of all daily deltas of the window, rounded to two
decimals. -/
theorem C4_running_total (txs : List Transaction) (today days : ℤ) (i : ℕ)
    (hi : i < (days + 1).toNat) :
    (calculate_balance_history txs today days).data.getD i 0 =
      round2 (initial_balance txs (today - days) +
        ∑ j ∈ Finset.range (i + 1),
          daily_changes (period_transactions txs (today - days) today)
            (today - days + (j : ℤ))) ∧
    (calculate_balance_history txs today days).data.getLast? =
      some (round2 (initial_balance txs (today - days) +
        ∑ j ∈ Finset.range ((days + 1).toNat),
          daily_changes (period_transactions txs (today - days) today)
            (today - days + (j : ℤ)))) := by
  rw [calculate_balance_history_data]
  set n := (days + 1).toNat with hn
  constructor
  · rw [List.getD_eq_getElem?_getD]
    rw [List.getElem?_map, List.getElem?_range hi]
    simp
  · have hn1 : 0 < n := Nat.lt_of_le_of_lt (Nat.zero_le i) hi
    rw [List.getLast?_eq_getElem?]
    simp only [List.length_map, List.length_range]
    have hlt : n - 1 < n := by omega
    rw [List.getElem?_map, List.getElem?_range hlt]
    have : n - 1 + 1 = n := by omega
    simp [this]

/-- Witness for C4 at a concrete input. -/
theorem C4_running_total_witness :
    (calculate_balance_history
        [⟨7, TransactionKind.income, ⟨19999, 0⟩, none⟩] 20000 2).data.getD 1 0 =
      round2 (initial_balance
          [⟨7, TransactionKind.income, ⟨19999, 0⟩, none⟩] 19998 +
        ∑ j ∈ Finset.range 2,
          daily_changes (period_transactions
              [⟨7, TransactionKind.income, ⟨19999, 0⟩, none⟩] 19998 20000)
            (19998 + (j : ℤ))) :=
  (C4_running_total
    [⟨7, TransactionKind.income, ⟨19999, 0⟩, none⟩] 20000 2 1 (by decide)).1

/-- C9: the date labels follow the three-tier format policy: day.month for
`window_days ≤ 30`, the same day.month for `30 < window_days ≤ 90`, and
day.month.two-digit-year for `window_days > 90`. -/
theorem C9_label_format (txs : List Transaction) (today days : ℤ) (i : ℕ)
    (hi : i < (days + 1).toNat) :
    (days ≤ 30 →
      (calculate_balance_history txs today days).labels.getD i "" =
        fmt_dm (today - days + (i : ℤ))) ∧
    (30 < days → days ≤ 90 →
      (calculate_balance_history txs today days).labels.getD i "" =
        fmt_dm (today - days + (i : ℤ))) ∧
    (90 < days →
      (calculate_balance_history txs today days).labels.getD i "" =
        fmt_dmy (today - days + (i : ℤ))) := by
  have hbase :
      (calculate_balance_history txs today days).labels.getD i "" =
        date_format days (today - days + (i : ℤ)) := by
    rw [calculate_balance_history_labels, List.getD_eq_getElem?_getD,
      List.getElem?_map, List.getElem?_range hi]
    simp
  refine ⟨fun h1 => ?_, fun h1 h2 => ?_, fun h1 => ?_⟩
  · rw [hbase, date_format, if_pos h1]
  · rw [hbase, date_format, if_neg (by omega), if_pos h2]
  · rw [hbase, date_format, if_neg (by omega), if_neg (by omega)]

/-- Witness for C9 at concrete inputs: one label of a 30-day window and one
label of a 91-day window. -/
theorem C9_label_format_witness :
    (calculate_balance_history [] 20000 30).labels.getD 0 "" =
      fmt_dm (20000 - 30 + (0 : ℤ)) ∧
    (calculate_balance_history [] 20000 91).labels.getD 0 "" =
      fmt_dmy (20000 - 91 + (0 : ℤ)) :=
  ⟨(C9_label_format [] 20000 30 0 (by decide)).1 (by decide),
    (C9_label_format [] 20000 91 0 (by decide)).2.2 (by decide)⟩

/-- `daily_changes` of an empty period is identically zero. -/
theorem daily_changes_nil (d : ℤ) : daily_changes [] d = 0 := rfl

theorem ratFloor_intCast (n : ℤ) : ratFloor ((n : ℚ)) = n := by
  simp [ratFloor, Rat.num_intCast, Rat.den_intCast]

theorem roundHalfEven_intCast (m : ℤ) : roundHalfEven ((m : ℚ)) = m := by
  simp only [roundHalfEven, ratFloor_intCast]
  norm_num

/-- Rounding an integer-valued rational to two decimals returns it
unchanged. -/
theorem round2_intCast (n : ℤ) : round2 ((n : ℚ)) = n := by
  rw [round2]
  have h : ((n : ℚ)) * 100 = ((n * 100 : ℤ) : ℚ) := by push_cast; ring
  rw [h, roundHalfEven_intCast]
  push_cast
  field_simp

theorem round2_zero : round2 0 = 0 := by
  have := round2_intCast 0
  simpa using this

/-- C3 (code bug): a transaction occurring on the end date `today` at any
time after midnight is excluded from the period query
(`transaction_date__lte=end_date` compares against midnight of today), so
it is dropped from the series: with a single income of 100 at 12:00 today
and a 30-day window, every balance — in particular the final entry, at
index 30 of the 31-entry series — is 0, not 100. -/
theorem C3_today_transaction_dropped :
    (calculate_balance_history
        [⟨100, TransactionKind.income, ⟨20000, 43200⟩, none⟩]
        20000 30).data.length = 31 ∧
    (calculate_balance_history
        [⟨100, TransactionKind.income, ⟨20000, 43200⟩, none⟩]
        20000 30).data.getD 30 0 = 0 ∧
    signedContribution
        ⟨100, TransactionKind.income, ⟨20000, 43200⟩, none⟩ = 100 ∧
    (⟨100, TransactionKind.income, ⟨20000, 43200⟩,
        none⟩ : Transaction).transaction_date.day = 20000 := by
  have hper : period_transactions
      [⟨100, TransactionKind.income, ⟨20000, 43200⟩, none⟩]
      (20000 - 30) 20000 = [] := by decide
  have hinit : initial_balance
      [⟨100, TransactionKind.income, ⟨20000, 43200⟩, none⟩]
      (20000 - 30) = 0 := by
    have hf : List.filter
        (fun (t : Transaction) => dtLtB t.transaction_date (midnight (20000 - 30)))
        ([⟨100, TransactionKind.income, ⟨20000, 43200⟩, none⟩] :
          List Transaction) = [] := by
      decide
    rw [initial_balance, hf]
    rfl
  refine ⟨?_, ?_, rfl, rfl⟩
  · rw [calculate_balance_history_data]
    rfl
  · rw [calculate_balance_history_data, List.getD_eq_getElem?_getD,
      List.getElem?_map, List.getElem?_range (by decide : 30 < ((30 : ℤ) + 1).toNat)]
    simp only [Option.map_some', Option.getD_some]
    rw [hper, hinit]
    simp only [daily_changes_nil, Finset.sum_const_zero, add_zero]
    exact round2_zero

/-! ## Dictionary lemmas for the comparison aggregator -/

theorem dictStep_eq (m : List (String × ℚ)) (p : Category × Option ℚ) :
    dictStep m p = m ++ dictStep [] p := by
  cases h : p.2 with
  | none => simp [dictStep, h]
  | some q =>
    by_cases hq : 0 < q <;> simp [dictStep, h, hq]

theorem foldl_dictStep_acc (l : List (Category × Option ℚ)) :
    ∀ m : List (String × ℚ),
      l.foldl dictStep m = m ++ l.foldl dictStep [] := by
  induction l with
  | nil => intro m; simp
  | cons p l ih =>
    intro m
    rw [List.foldl_cons, List.foldl_cons, ih (dictStep m p),
      ih (dictStep [] p), dictStep_eq m p, List.append_assoc]

theorem buildDict_cons (p : Category × Option ℚ)
    (l : List (Category × Option ℚ)) :
    buildDict (p :: l) = dictStep [] p ++ buildDict l := by
  rw [buildDict, List.foldl_cons, foldl_dictStep_acc l (dictStep [] p)]
  rfl

theorem mem_dictStep_nil (n : String) (q : ℚ) (p : Category × Option ℚ) :
    (n, q) ∈ dictStep [] p ↔
      p.1.category_name = n ∧ p.2 = some q ∧ 0 < q := by
  cases h : p.2 with
  | none =>
    simp only [dictStep, h]
    constructor
    · intro hm
      exact absurd hm (List.not_mem_nil _)
    · rintro ⟨-, h2, -⟩
      exact Option.noConfusion h2
  | some r =>
    constructor
    · intro hm
      simp only [dictStep, h] at hm
      by_cases hr : 0 < r
      · rw [if_pos hr, List.nil_append, List.mem_singleton] at hm
        have h1 := congrArg Prod.fst hm
        have h2 := congrArg Prod.snd hm
        simp only at h1 h2
        subst h2
        exact ⟨h1.symm, rfl, hr⟩
      · rw [if_neg hr] at hm
        exact absurd hm (List.not_mem_nil _)
    · rintro ⟨h1, h2, h3⟩
      obtain rfl := Option.some_injective _ h2
      simp only [dictStep, h, if_pos h3, List.nil_append, List.mem_singleton]
      exact Prod.ext h1.symm rfl

theorem mem_buildDict (n : String) (q : ℚ) (l : List (Category × Option ℚ)) :
    (n, q) ∈ buildDict l ↔
      ∃ p ∈ l, p.1.category_name = n ∧ p.2 = some q ∧ 0 < q := by
  induction l with
  | nil => simp [buildDict]
  | cons p l ih =>
    rw [buildDict_cons, List.mem_append, ih, mem_dictStep_nil]
    constructor
    · rintro (h | ⟨x, hx, hp⟩)
      · exact ⟨p, List.mem_cons_self p l, h⟩
      · exact ⟨x, List.mem_cons_of_mem p hx, hp⟩
    · rintro ⟨x, hx, hp⟩
      rcases List.mem_cons.mp hx with rfl | hx
      · exact Or.inl hp
      · exact Or.inr ⟨x, hx, hp⟩

theorem buildDict_value_pos (l : List (Category × Option ℚ)) (n : String)
    (q : ℚ) (h : (n, q) ∈ buildDict l) : 0 < q :=
  ((mem_buildDict n q l).mp h).choose_spec.2.2.2

theorem lookupLast_snoc (m : List (String × ℚ)) (p : String × ℚ)
    (k : String) :
    lookupLast (m ++ [p]) k =
      if p.1 = k then some p.2 else lookupLast m k := by
  simp [lookupLast, List.foldl_append]

theorem lookupLast_eq_none_iff (m : List (String × ℚ)) (k : String) :
    lookupLast m k = none ↔ ∀ q : ℚ, (k, q) ∉ m := by
  induction m using List.reverseRecOn with
  | nil => simp [lookupLast]
  | append_singleton m p ih =>
    rw [lookupLast_snoc]
    by_cases h : p.1 = k
    · simp only [if_pos h]
      constructor
      · intro hcontra; exact absurd hcontra (by simp)
      · intro hall
        exact absurd (hall p.2) (by simp [List.mem_append, ← h])
    · simp only [if_neg h, ih]
      constructor
      · intro hall q hq
        rcases List.mem_append.mp hq with hq | hq
        · exact hall q hq
        · rw [List.mem_singleton] at hq
          exact h (congrArg Prod.fst hq.symm)
      · intro hall q hq
        exact hall q (List.mem_append_left _ hq)

theorem lookupLast_mem (m : List (String × ℚ)) (k : String) (q : ℚ)
    (h : lookupLast m k = some q) : (k, q) ∈ m := by
  induction m using List.reverseRecOn with
  | nil => simp [lookupLast] at h
  | append_singleton m p ih =>
    rw [lookupLast_snoc] at h
    by_cases hp : p.1 = k
    · rw [if_pos hp] at h
      obtain rfl := Option.some_injective _ h.symm
      have hpk : p = (k, p.2) := Prod.ext hp rfl
      rw [← hpk]
      exact List.mem_append_right _ (List.mem_singleton.mpr rfl)
    · rw [if_neg hp] at h
      exact List.mem_append_left _ (ih h)

theorem lookupLast_isSome_of_mem (m : List (String × ℚ)) (k : String)
    (q : ℚ) (h : (k, q) ∈ m) : ∃ r : ℚ, lookupLast m k = some r := by
  cases hl : lookupLast m k with
  | none => exact absurd h ((lookupLast_eq_none_iff m k).mp hl q)
  | some r => exact ⟨r, rfl⟩

theorem mem_dictKeys (m : List (String × ℚ)) (n : String) :
    n ∈ dictKeys m ↔ ∃ q : ℚ, (n, q) ∈ m := by
  rw [dictKeys]
  constructor
  · intro h
    obtain ⟨p, hp, hfst⟩ := List.mem_map.mp h
    exact ⟨p.2, by rwa [show (n, p.2) = p from by rw [← hfst]]⟩
  · rintro ⟨q, hq⟩
    exact List.mem_map.mpr ⟨(n, q), hq, rfl⟩

theorem hasPositiveTotal_iff (txs : List Transaction)
    (flt : Transaction → Bool) (c : Category) :
    hasPositiveTotal txs flt c = true ↔
      ∃ q : ℚ, catTotal txs flt c = some q ∧ 0 < q := by
  rw [hasPositiveTotal]
  cases h : catTotal txs flt c <;> simp [h]

theorem mem_by_category (cats : List Category) (kind : CategoryKind)
    (txs : List Transaction) (flt : Transaction → Bool)
    (p : Category × Option ℚ) :
    p ∈ by_category cats kind txs flt ↔
      ∃ c ∈ cats, c.category_kind = kind ∧ p = (c, catTotal txs flt c) := by
  rw [by_category, List.mem_insertionSort, List.mem_map]
  constructor
  · rintro ⟨c, hc, rfl⟩
    rw [List.mem_filter] at hc
    exact ⟨c, hc.1, of_decide_eq_true hc.2, rfl⟩
  · rintro ⟨c, hc, hkind, rfl⟩
    exact ⟨c, List.mem_filter.mpr ⟨hc, decide_eq_true hkind⟩, rfl⟩

/-- A name is a key of the per-kind dictionary exactly when some category
of that kind bearing that name has a positive total. -/
theorem dict_key_iff (cats : List Category) (kind : CategoryKind)
    (txs : List Transaction) (flt : Transaction → Bool) (n : String) :
    n ∈ dictKeys (buildDict (by_category cats kind txs flt)) ↔
      ∃ c ∈ cats, c.category_kind = kind ∧ c.category_name = n ∧
        hasPositiveTotal txs flt c = true := by
  rw [mem_dictKeys]
  constructor
  · rintro ⟨q, hq⟩
    obtain ⟨p, hp, hname, htot, hpos⟩ := (mem_buildDict n q _).mp hq
    obtain ⟨c, hc, hkind, rfl⟩ := (mem_by_category cats kind txs flt p).mp hp
    exact ⟨c, hc, hkind, hname,
      (hasPositiveTotal_iff txs flt c).mpr ⟨q, htot, hpos⟩⟩
  · rintro ⟨c, hc, hkind, hname, hpos⟩
    obtain ⟨q, hq, hq0⟩ := (hasPositiveTotal_iff txs flt c).mp hpos
    refine ⟨q, (mem_buildDict n q _).mpr
      ⟨(c, catTotal txs flt c),
        (mem_by_category cats kind txs flt _).mpr ⟨c, hc, hkind, rfl⟩,
        hname, by rw [hq], hq0⟩⟩

/-! ## Projections of `calculate_comparison_data` -/

/-- The per-name expense dictionary built by `calculate_comparison_data`. -/
def expense_dict (cats : List Category) (txs : List Transaction)
    (today : ℤ) (days : Option ℤ) : List (String × ℚ) :=
  buildDict (by_category cats CategoryKind.expense txs (date_filter today days))

/-- The per-name income dictionary built by `calculate_comparison_data`. -/
def income_dict (cats : List Category) (txs : List Transaction)
    (today : ℤ) (days : Option ℤ) : List (String × ℚ) :=
  buildDict (by_category cats CategoryKind.income txs (date_filter today days))

/-- The sorted union of the two dictionaries' key sets. -/
def sorted_categories (cats : List Category) (txs : List Transaction)
    (today : ℤ) (days : Option ℤ) : List String :=
  List.insertionSort (fun a b => a ≤ b)
    ((dictKeys (expense_dict cats txs today days) ++
      dictKeys (income_dict cats txs today days)).dedup)

theorem calculate_comparison_data_eq (cats : List Category)
    (txs : List Transaction) (today : ℤ) (days : Option ℤ) :
    calculate_comparison_data cats txs today days =
      ⟨sorted_categories cats txs today days,
        (sorted_categories cats txs today days).map
          (fun c => (lookupLast (expense_dict cats txs today days) c).getD 0),
        (sorted_categories cats txs today days).map
          (fun c => (lookupLast (income_dict cats txs today days) c).getD 0)⟩ :=
  rfl

theorem mem_sorted_categories (cats : List Category) (txs : List Transaction)
    (today : ℤ) (days : Option ℤ) (n : String) :
    n ∈ sorted_categories cats txs today days ↔
      n ∈ dictKeys (expense_dict cats txs today days) ∨
      n ∈ dictKeys (income_dict cats txs today days) := by
  rw [sorted_categories, List.mem_insertionSort, List.mem_dedup,
    List.mem_append]

theorem getD_mem_of_lt (L : List String) (i : ℕ) (hi : i < L.length) :
    L.getD i "" ∈ L := by
  rw [List.getD_eq_getElem?_getD, List.getElem?_eq_getElem hi]
  exact List.getElem_mem hi

theorem map_lookup_getD (dict : List (String × ℚ)) (L : List String)
    (i : ℕ) (hi : i < L.length) :
    (L.map (fun c => (lookupLast dict c).getD 0)).getD i 0 =
      (lookupLast dict (L.getD i "")).getD 0 := by
  rw [List.getD_eq_getElem?_getD, List.getElem?_map,
    List.getElem?_eq_getElem hi, Option.map_some', Option.getD_some,
    List.getD_eq_getElem?_getD, List.getElem?_eq_getElem hi, Option.getD_some]

/-- If no category of the given kind with the given name has a positive
total, the name is absent from that kind's dictionary. -/
theorem lookupLast_eq_none_of_no_positive (cats : List Category)
    (kind : CategoryKind) (txs : List Transaction)
    (flt : Transaction → Bool) (n : String)
    (hnone : ∀ c ∈ cats, c.category_kind = kind → c.category_name = n →
      hasPositiveTotal txs flt c = false) :
    lookupLast (buildDict (by_category cats kind txs flt)) n = none := by
  rw [lookupLast_eq_none_iff]
  intro q hq
  obtain ⟨p, hp, hname, htot, hpos⟩ := (mem_buildDict n q _).mp hq
  obtain ⟨c, hc, hkind, rfl⟩ := (mem_by_category cats kind txs flt p).mp hp
  have htrue : hasPositiveTotal txs flt c = true :=
    (hasPositiveTotal_iff txs flt c).mpr ⟨q, htot, hpos⟩
  rw [hnone c hc hkind hname] at htrue
  exact Bool.noConfusion htrue

/-! ### Concrete evaluation helpers -/

theorem buildDict_single_some (c : Category) (q : ℚ) (hq : 0 < q) :
    buildDict [(c, some q)] = [(c.category_name, q)] := by
  rw [buildDict, List.foldl_cons, List.foldl_nil]
  simp only [dictStep]
  rw [if_pos hq]
  rfl

theorem dedup_single (s : String) : ([s] : List String).dedup = [s] := by
  rw [List.dedup_cons_of_not_mem (List.not_mem_nil s), List.dedup_nil]

/-- Evaluation of the comparison aggregator on one expense category holding
a single positive-amount transaction of any kind: the category is emitted
with that amount as its expense total. -/
theorem ccd_single_expense_eval (nm : String) (k : TransactionKind)
    (a : ℚ) (dt : DateTimeV) (today : ℤ) (ha : 0 < a) :
    calculate_comparison_data [⟨1, nm, CategoryKind.expense⟩]
        [⟨a, k, dt, some 1⟩] today none =
      ⟨[nm], [a], [0]⟩ := by
  have hby : by_category [⟨1, nm, CategoryKind.expense⟩]
      CategoryKind.expense [⟨a, k, dt, some 1⟩] (date_filter today none) =
      [(⟨1, nm, CategoryKind.expense⟩, some (0 + a))] := rfl
  have hbyInc : by_category [⟨1, nm, CategoryKind.expense⟩]
      CategoryKind.income [⟨a, k, dt, some 1⟩] (date_filter today none) =
      [] := rfl
  have hexp : expense_dict [⟨1, nm, CategoryKind.expense⟩]
      [⟨a, k, dt, some 1⟩] today none = [(nm, 0 + a)] := by
    rw [expense_dict, hby]
    exact buildDict_single_some ⟨1, nm, CategoryKind.expense⟩ (0 + a)
      (by linarith)
  have hinc : income_dict [⟨1, nm, CategoryKind.expense⟩]
      [⟨a, k, dt, some 1⟩] today none = [] := by
    rw [income_dict, hbyInc]
    rfl
  rw [calculate_comparison_data_eq, sorted_categories, hexp, hinc]
  simp [dictKeys, dedup_single, lookupLast]

/-- Evaluation of the comparison aggregator on one income category holding
a single positive-amount transaction of any kind. -/
theorem ccd_single_income_eval (nm : String) (k : TransactionKind)
    (a : ℚ) (dt : DateTimeV) (today : ℤ) (ha : 0 < a) :
    calculate_comparison_data [⟨1, nm, CategoryKind.income⟩]
        [⟨a, k, dt, some 1⟩] today none =
      ⟨[nm], [0], [a]⟩ := by
  have hby : by_category [⟨1, nm, CategoryKind.income⟩]
      CategoryKind.income [⟨a, k, dt, some 1⟩] (date_filter today none) =
      [(⟨1, nm, CategoryKind.income⟩, some (0 + a))] := rfl
  have hbyExp : by_category [⟨1, nm, CategoryKind.income⟩]
      CategoryKind.expense [⟨a, k, dt, some 1⟩] (date_filter today none) =
      [] := rfl
  have hinc : income_dict [⟨1, nm, CategoryKind.income⟩]
      [⟨a, k, dt, some 1⟩] today none = [(nm, 0 + a)] := by
    rw [income_dict, hby]
    exact buildDict_single_some ⟨1, nm, CategoryKind.income⟩ (0 + a)
      (by linarith)
  have hexp : expense_dict [⟨1, nm, CategoryKind.income⟩]
      [⟨a, k, dt, some 1⟩] today none = [] := by
    rw [expense_dict, hbyExp]
    rfl
  rw [calculate_comparison_data_eq, sorted_categories, hexp, hinc]
  simp [dictKeys, dedup_single, lookupLast]

/-- C7: the comparison output is three index-aligned sequences of equal
length, with `categories` sorted ascending (case-sensitively), and a
category with no positive expense (resp. income) total receives the value
0 at its index in that series instead of being omitted. -/
theorem C7_aligned_sorted_zero_filled (cats : List Category)
    (txs : List Transaction) (today : ℤ) (days : Option ℤ) :
    List.Sorted (fun a b : String => a ≤ b)
      (calculate_comparison_data cats txs today days).labels ∧
    (calculate_comparison_data cats txs today days).expenses.length =
      (calculate_comparison_data cats txs today days).labels.length ∧
    (calculate_comparison_data cats txs today days).incomes.length =
      (calculate_comparison_data cats txs today days).labels.length ∧
    (∀ i : ℕ,
      i < (calculate_comparison_data cats txs today days).labels.length →
      ((∀ c ∈ cats, c.category_kind = CategoryKind.expense →
          c.category_name =
            (calculate_comparison_data cats txs today days).labels.getD i "" →
          hasPositiveTotal txs (date_filter today days) c = false) →
        (calculate_comparison_data cats txs today days).expenses.getD i 0
          = 0) ∧
      ((∀ c ∈ cats, c.category_kind = CategoryKind.income →
          c.category_name =
            (calculate_comparison_data cats txs today days).labels.getD i "" →
          hasPositiveTotal txs (date_filter today days) c = false) →
        (calculate_comparison_data cats txs today days).incomes.getD i 0
          = 0)) := by
  rw [calculate_comparison_data_eq]
  refine ⟨?_, by simp, by simp, ?_⟩
  · rw [sorted_categories]
    exact List.sorted_insertionSort _ _
  · intro i hi
    simp only [List.length_map] at hi ⊢
    constructor
    · intro hnone
      rw [map_lookup_getD _ _ i hi, expense_dict,
        lookupLast_eq_none_of_no_positive cats CategoryKind.expense txs
          (date_filter today days) _ hnone]
      rfl
    · intro hnone
      rw [map_lookup_getD _ _ i hi, income_dict,
        lookupLast_eq_none_of_no_positive cats CategoryKind.income txs
          (date_filter today days) _ hnone]
      rfl

/-- Witness for C7 at a concrete input: one income category with activity,
asked at index 0 of the expense series. -/
theorem C7_aligned_sorted_zero_filled_witness :
    (calculate_comparison_data [⟨1, "Salary", CategoryKind.income⟩]
        [⟨2000, TransactionKind.income, ⟨20000, 0⟩, some 1⟩]
        20000 none).expenses.getD 0 0 = 0 :=
  ((C7_aligned_sorted_zero_filled [⟨1, "Salary", CategoryKind.income⟩]
      [⟨2000, TransactionKind.income, ⟨20000, 0⟩, some 1⟩] 20000 none).2.2.2
    0 (by rw [ccd_single_income_eval "Salary" TransactionKind.income 2000
        ⟨20000, 0⟩ 20000 (by norm_num)]; decide)).1
    (by intro c hc hkind; rw [List.mem_singleton] at hc; subst hc;
        exact absurd hkind (by decide))

/-- C8: every name in `categories` has a strictly positive value at its
index in `expense_totals` or in `income_totals`, and a name for which no
category has a positive total in the window appears in none of the output
sequences. -/
theorem C8_emitted_iff_positive (cats : List Category)
    (txs : List Transaction) (today : ℤ) (days : Option ℤ) :
    (∀ i : ℕ,
      i < (calculate_comparison_data cats txs today days).labels.length →
      0 < (calculate_comparison_data cats txs today days).expenses.getD i 0 ∨
      0 < (calculate_comparison_data cats txs today days).incomes.getD i 0) ∧
    (∀ n : String,
      (∀ c ∈ cats, c.category_name = n →
        hasPositiveTotal txs (date_filter today days) c = false) →
      n ∉ (calculate_comparison_data cats txs today days).labels) := by
  rw [calculate_comparison_data_eq]
  constructor
  · intro i hi
    simp only [List.length_map] at hi ⊢
    have hmem := getD_mem_of_lt _ i hi
    rw [mem_sorted_categories] at hmem
    rcases hmem with hmem | hmem
    · left
      obtain ⟨q, hq⟩ := (mem_dictKeys _ _).mp hmem
      obtain ⟨r, hr⟩ := lookupLast_isSome_of_mem _ _ _ hq
      rw [map_lookup_getD _ _ i hi, hr, Option.getD_some]
      exact buildDict_value_pos _ _ _ (lookupLast_mem _ _ _ hr)
    · right
      obtain ⟨q, hq⟩ := (mem_dictKeys _ _).mp hmem
      obtain ⟨r, hr⟩ := lookupLast_isSome_of_mem _ _ _ hq
      rw [map_lookup_getD _ _ i hi, hr, Option.getD_some]
      exact buildDict_value_pos _ _ _ (lookupLast_mem _ _ _ hr)
  · intro n hnone hmem
    rw [mem_sorted_categories] at hmem
    rcases hmem with hmem | hmem
    · obtain ⟨c, hc, hkind, hname, hpos⟩ := (dict_key_iff _ _ _ _ _).mp hmem
      rw [hnone c hc hname] at hpos
      exact Bool.noConfusion hpos
    · obtain ⟨c, hc, hkind, hname, hpos⟩ := (dict_key_iff _ _ _ _ _).mp hmem
      rw [hnone c hc hname] at hpos
      exact Bool.noConfusion hpos

/-- No category of the single-Food-category example is named Ghost. -/
theorem food_no_ghost :
    ∀ c ∈ [(⟨1, "Food", CategoryKind.expense⟩ : Category)],
      c.category_name = "Ghost" →
      hasPositiveTotal [⟨150, TransactionKind.expense, ⟨20000, 0⟩, some 1⟩]
        (date_filter 20000 none) c = false := by
  intro c hc hname
  rw [List.mem_singleton] at hc
  subst hc
  exact absurd hname (by decide)

/-- The single-Food-category example emits one label. -/
theorem food_labels_len :
    0 < (calculate_comparison_data [⟨1, "Food", CategoryKind.expense⟩]
      [⟨150, TransactionKind.expense, ⟨20000, 0⟩, some 1⟩]
      20000 none).labels.length := by
  rw [ccd_single_expense_eval "Food" TransactionKind.expense 150 ⟨20000, 0⟩
    20000 (by norm_num)]
  decide

/-- Witness for C8 at a concrete input. -/
theorem C8_emitted_iff_positive_witness :
    (0 < (calculate_comparison_data [⟨1, "Food", CategoryKind.expense⟩]
        [⟨150, TransactionKind.expense, ⟨20000, 0⟩, some 1⟩]
        20000 none).expenses.getD 0 0 ∨
      0 < (calculate_comparison_data [⟨1, "Food", CategoryKind.expense⟩]
        [⟨150, TransactionKind.expense, ⟨20000, 0⟩, some 1⟩]
        20000 none).incomes.getD 0 0) ∧
    "Ghost" ∉ (calculate_comparison_data [⟨1, "Food", CategoryKind.expense⟩]
        [⟨150, TransactionKind.expense, ⟨20000, 0⟩, some 1⟩]
        20000 none).labels :=
  ⟨(C8_emitted_iff_positive [⟨1, "Food", CategoryKind.expense⟩]
      [⟨150, TransactionKind.expense, ⟨20000, 0⟩, some 1⟩] 20000 none).1
    0 food_labels_len,
    (C8_emitted_iff_positive [⟨1, "Food", CategoryKind.expense⟩]
      [⟨150, TransactionKind.expense, ⟨20000, 0⟩, some 1⟩] 20000 none).2
    "Ghost" food_no_ghost⟩

/-! ## C2: transfers and the two aggregators -/

/-- C2 counterexample: a single `transfer` transaction assigned to the
expense category Food makes the category-comparison output report an
expense total of 100 for Food — the transfer contributed its amount, not
0 (with only this transaction present, a zero contribution would have left
every series empty). -/
theorem C2_transfer_counterexample :
    calculate_comparison_data [⟨1, "Food", CategoryKind.expense⟩]
        [⟨100, TransactionKind.transfer, ⟨20000, 0⟩, some 1⟩] 20000 none =
      ⟨["Food"], [100], [0]⟩ ∧
    (100 : ℚ) ≠ 0 :=
  ⟨ccd_single_expense_eval "Food" TransactionKind.transfer 100 ⟨20000, 0⟩
      20000 (by norm_num),
    by norm_num⟩

/-- C2 (amended): a `transfer` transaction contributes nothing to balance
history (prepending one changes neither the initial balance nor any daily
delta, hence not the output), but in category comparison the annotated
total never consults the transaction kind: a transfer assigned to a
category and passing the window filter adds its amount to that category's
total, and one not assigned (or filtered out) leaves the total
unchanged. -/
theorem C2_transfer_contributions (t : Transaction)
    (ht : t.transaction_kind = TransactionKind.transfer) :
    (∀ (txs : List Transaction) (today days : ℤ),
      calculate_balance_history (t :: txs) today days =
        calculate_balance_history txs today days) ∧
    (∀ (txs : List Transaction) (flt : Transaction → Bool) (c : Category),
      (t.category = some c.id ∧ flt t = true →
        catTotal (t :: txs) flt c =
          some (t.amount + (catTotal txs flt c).getD 0)) ∧
      (¬ (t.category = some c.id ∧ flt t = true) →
        catTotal (t :: txs) flt c = catTotal txs flt c)) := by
  have hstep : ∀ acc : ℚ, signedStep acc t = acc := by
    intro acc
    simp [signedStep, ht]
  constructor
  · intro txs today days
    have hinit : ∀ s : ℤ,
        initial_balance (t :: txs) s = initial_balance txs s := by
      intro s
      rw [initial_balance, initial_balance, List.filter_cons]
      split
      · rw [List.foldl_cons, hstep]
      · rfl
    have hper : ∀ d : ℤ,
        daily_changes (period_transactions (t :: txs) (today - days) today) d
          = daily_changes (period_transactions txs (today - days) today) d := by
      intro d
      rw [period_transactions, period_transactions, List.filter_cons]
      split
      · rw [daily_changes, daily_changes, List.filter_cons]
        split
        · rw [List.foldl_cons, hstep]
        · rfl
      · rfl
    have hfun :
        daily_changes (period_transactions (t :: txs) (today - days) today)
          = daily_changes (period_transactions txs (today - days) today) :=
      funext hper
    simp only [calculate_balance_history]
    rw [hinit (today - days), hfun]
  · intro txs flt c
    constructor
    · rintro ⟨hcat, hflt⟩
      have hcond : (decide (t.category = some c.id) && flt t) = true := by
        rw [hflt, decide_eq_true hcat]
        rfl
      simp only [catTotal]
      rw [List.filter_cons, if_pos hcond]
      simp only [List.isEmpty_cons, Bool.false_eq_true, if_false]
      cases hrel :
          txs.filter (fun x => decide (x.category = some c.id) && flt x) with
      | nil =>
        simp [foldl_amount]
      | cons x l =>
        simp only [List.isEmpty_cons, Bool.false_eq_true, if_false,
          Option.getD_some, List.foldl_cons, foldl_amount]
        congr 1
        ring
    · intro hneg
      have hcond : (decide (t.category = some c.id) && flt t) = false := by
        cases h1 : decide (t.category = some c.id)
        · rfl
        · cases h2 : flt t
          · rfl
          · exact absurd ⟨of_decide_eq_true h1, h2⟩ hneg
      rw [catTotal, catTotal, List.filter_cons, hcond]
      rfl

/-- Witness for C2 at concrete inputs. -/
theorem C2_transfer_contributions_witness :
    calculate_balance_history
        (⟨50, TransactionKind.transfer, ⟨20000, 0⟩, some 1⟩ ::
          [⟨7, TransactionKind.income, ⟨19999, 0⟩, none⟩]) 20000 2 =
      calculate_balance_history
        [⟨7, TransactionKind.income, ⟨19999, 0⟩, none⟩] 20000 2 ∧
    catTotal (⟨50, TransactionKind.transfer, ⟨20000, 0⟩, some 1⟩ :: [])
        (date_filter 20000 none) ⟨1, "Food", CategoryKind.expense⟩ =
      some (50 + (catTotal [] (date_filter 20000 none)
        ⟨1, "Food", CategoryKind.expense⟩).getD 0) :=
  ⟨(C2_transfer_contributions
      ⟨50, TransactionKind.transfer, ⟨20000, 0⟩, some 1⟩ rfl).1
      [⟨7, TransactionKind.income, ⟨19999, 0⟩, none⟩] 20000 2,
    ((C2_transfer_contributions
      ⟨50, TransactionKind.transfer, ⟨20000, 0⟩, some 1⟩ rfl).2
      [] (date_filter 20000 none) ⟨1, "Food", CategoryKind.expense⟩).1
      ⟨rfl, rfl⟩⟩

/-! ## C10: same-named categories share one dictionary slot -/

/-- `dictStep` on the empty binding list with a positive total. -/
theorem dictStep_nil_some (c : Category) (q : ℚ) (hq : 0 < q) :
    dictStep [] (c, some q) = [(c.category_name, q)] := by
  simp only [dictStep]
  rw [if_pos hq]
  rfl

/-- C10: category totals are keyed by `category_name`.  Two same-named
expense categories with positive totals produce the name once, and the
emitted expense value is the total written last into the dictionary —
iteration is descending by total, so the smaller positive total wins, not
the sum.  An expense and an income category sharing a name likewise share
the single label row, each side keeping its own total. -/
theorem C10_same_name_last_write_wins (s : String) (a b : ℚ) (today : ℤ)
    (hba : b < a) (hb : 0 < b) :
    calculate_comparison_data
        [⟨1, s, CategoryKind.expense⟩, ⟨2, s, CategoryKind.expense⟩]
        [⟨a, TransactionKind.expense, ⟨0, 0⟩, some 1⟩,
          ⟨b, TransactionKind.expense, ⟨0, 0⟩, some 2⟩] today none =
      ⟨[s], [b], [0]⟩ ∧
    calculate_comparison_data
        [⟨1, s, CategoryKind.expense⟩, ⟨2, s, CategoryKind.income⟩]
        [⟨a, TransactionKind.expense, ⟨0, 0⟩, some 1⟩,
          ⟨b, TransactionKind.income, ⟨0, 0⟩, some 2⟩] today none =
      ⟨[s], [a], [b]⟩ := by
  have ha : (0 : ℚ) < a := lt_trans hb hba
  have hqa : (0 : ℚ) < 0 + a := by linarith
  have hqb : (0 : ℚ) < 0 + b := by linarith
  have hdd : ([s, s] : List String).dedup = [s] := by
    rw [List.dedup_cons_of_mem (List.mem_singleton.mpr rfl), dedup_single]
  constructor
  · have hcmp : totalDesc (⟨1, s, CategoryKind.expense⟩, some ((0 : ℚ) + a))
        (⟨2, s, CategoryKind.expense⟩, some ((0 : ℚ) + b)) := by
      show totKey (some ((0 : ℚ) + b)) ≤ totKey (some ((0 : ℚ) + a))
      simp only [totKey]
      exact_mod_cast (by linarith : (0 : ℚ) + b ≤ 0 + a)
    have hby : by_category
        [⟨1, s, CategoryKind.expense⟩, ⟨2, s, CategoryKind.expense⟩]
        CategoryKind.expense
        [⟨a, TransactionKind.expense, ⟨0, 0⟩, some 1⟩,
          ⟨b, TransactionKind.expense, ⟨0, 0⟩, some 2⟩]
        (date_filter today none) =
        [(⟨1, s, CategoryKind.expense⟩, some ((0 : ℚ) + a)),
          (⟨2, s, CategoryKind.expense⟩, some ((0 : ℚ) + b))] := by
      rw [by_category]
      show List.insertionSort totalDesc
        [(⟨1, s, CategoryKind.expense⟩, some ((0 : ℚ) + a)),
          (⟨2, s, CategoryKind.expense⟩, some ((0 : ℚ) + b))] = _
      simp only [List.insertionSort, List.orderedInsert]
      rw [if_pos hcmp]
    have hexp : expense_dict
        [⟨1, s, CategoryKind.expense⟩, ⟨2, s, CategoryKind.expense⟩]
        [⟨a, TransactionKind.expense, ⟨0, 0⟩, some 1⟩,
          ⟨b, TransactionKind.expense, ⟨0, 0⟩, some 2⟩] today none =
        [(s, 0 + a), (s, 0 + b)] := by
      rw [expense_dict, hby, buildDict_cons, dictStep_nil_some _ _ hqa,
        buildDict_cons, dictStep_nil_some _ _ hqb]
      rfl
    have hinc : income_dict
        [⟨1, s, CategoryKind.expense⟩, ⟨2, s, CategoryKind.expense⟩]
        [⟨a, TransactionKind.expense, ⟨0, 0⟩, some 1⟩,
          ⟨b, TransactionKind.expense, ⟨0, 0⟩, some 2⟩] today none = [] :=
      rfl
    rw [calculate_comparison_data_eq, sorted_categories, hexp, hinc]
    simp [dictKeys, hdd, lookupLast]
  · have hby : by_category
        [⟨1, s, CategoryKind.expense⟩, ⟨2, s, CategoryKind.income⟩]
        CategoryKind.expense
        [⟨a, TransactionKind.expense, ⟨0, 0⟩, some 1⟩,
          ⟨b, TransactionKind.income, ⟨0, 0⟩, some 2⟩]
        (date_filter today none) =
        [(⟨1, s, CategoryKind.expense⟩, some ((0 : ℚ) + a))] := rfl
    have hbyi : by_category
        [⟨1, s, CategoryKind.expense⟩, ⟨2, s, CategoryKind.income⟩]
        CategoryKind.income
        [⟨a, TransactionKind.expense, ⟨0, 0⟩, some 1⟩,
          ⟨b, TransactionKind.income, ⟨0, 0⟩, some 2⟩]
        (date_filter today none) =
        [(⟨2, s, CategoryKind.income⟩, some ((0 : ℚ) + b))] := rfl
    have hexp : expense_dict
        [⟨1, s, CategoryKind.expense⟩, ⟨2, s, CategoryKind.income⟩]
        [⟨a, TransactionKind.expense, ⟨0, 0⟩, some 1⟩,
          ⟨b, TransactionKind.income, ⟨0, 0⟩, some 2⟩] today none =
        [(s, 0 + a)] := by
      rw [expense_dict, hby]
      exact buildDict_single_some ⟨1, s, CategoryKind.expense⟩ (0 + a) hqa
    have hinc : income_dict
        [⟨1, s, CategoryKind.expense⟩, ⟨2, s, CategoryKind.income⟩]
        [⟨a, TransactionKind.expense, ⟨0, 0⟩, some 1⟩,
          ⟨b, TransactionKind.income, ⟨0, 0⟩, some 2⟩] today none =
        [(s, 0 + b)] := by
      rw [income_dict, hbyi]
      exact buildDict_single_some ⟨2, s, CategoryKind.income⟩ (0 + b) hqb
    rw [calculate_comparison_data_eq, sorted_categories, hexp, hinc]
    simp [dictKeys, hdd, lookupLast]

/-- Witness for C10 at a concrete input. -/
theorem C10_same_name_last_write_wins_witness :
    calculate_comparison_data
        [⟨1, "Food", CategoryKind.expense⟩, ⟨2, "Food", CategoryKind.expense⟩]
        [⟨3, TransactionKind.expense, ⟨0, 0⟩, some 1⟩,
          ⟨2, TransactionKind.expense, ⟨0, 0⟩, some 2⟩] 0 none =
      ⟨["Food"], [2], [0]⟩ :=
  (C10_same_name_last_write_wins "Food" 3 2 0 (by norm_num) (by norm_num)).1

/-! ## C1: the `days` query parameter at the endpoints -/

/-- C1 counterexample: a non-numeric `days` value such as `"abc"` makes
`int()` raise inside the handler, so both endpoints return the error
response — not the success response the claim promises. -/
theorem C1_nonnumeric_days_errors :
    get_balance_history [] 0 (some "abc") =
      Except.error "invalid literal for int" ∧
    get_comparison_data [] [] 0 (some "abc") =
      Except.error "invalid literal for int" := by
  constructor <;> rfl

/-- C1 (amended): every `days` value that parses as an integer outside
{30, 90, 365} is clamped to the 30-day default and both endpoints return
the success response; a value `int()` rejects (such as `"abc"`) instead
surfaces as the generic error response. -/
theorem C1_numeric_days_clamped (s : String) (n : ℤ)
    (txs : List Transaction) (cats : List Category) (today : ℤ)
    (hp : parsePyInt s = some n) (h30 : n ≠ 30) (h90 : n ≠ 90)
    (h365 : n ≠ 365) :
    get_balance_history txs today (some s) =
      Except.ok (calculate_balance_history txs today 30) ∧
    get_comparison_data cats txs today (some s) =
      Except.ok (calculate_comparison_data cats txs today (some 30)) := by
  have hnotin : ¬ (n = 30 ∨ n = 90 ∨ n = 365) := by
    rintro (h | h | h) <;> contradiction
  have hs : s ≠ "all" := by
    intro h
    rw [h, show parsePyInt "all" = none from rfl] at hp
    exact Option.noConfusion hp
  constructor
  · simp only [get_balance_history]
    rw [hp]
    simp only [if_neg hnotin]
  · simp only [get_comparison_data, Option.getD_some]
    rw [if_neg hs, hp]
    simp only [if_neg hnotin]

/-- Witness for C1 at a concrete input (`days=7`). -/
theorem C1_numeric_days_clamped_witness :
    get_balance_history [] 0 (some "7") =
      Except.ok (calculate_balance_history [] 0 30) ∧
    get_comparison_data [] [] 0 (some "7") =
      Except.ok (calculate_comparison_data [] [] 0 (some 30)) :=
  C1_numeric_days_clamped "7" 7 [] [] 0 rfl (by decide) (by decide)
    (by decide)

end Topfer
